import Mathlib

/-!
Verification of the StarTower Orb RabbitMQ instrumentation layer.

The Go source is embedded shallowly:

* `amqp091.Table` (a Go `map[string]interface{}` used for message headers)
  becomes an association list `Table` with last-write-wins `setTable` and
  first-match `lookupTable`, mirroring Go map insert/overwrite and lookup.
* `internal.HeaderCarrier` and `internal.GetCommonAttributes` /
  `GetPublishAttributes` / `GetConsumeAttributes` are translated directly
  from the `internal` package.
* Spans are modelled by an event trace (`Event`): span start and end,
  ack/nack calls on a delivery, record-error and set-status calls on the
  span, and the underlying channel send call.  `processDelivery`,
  `ProcessDelivery`, `Publish` and `PublishWithConfirm` are translated from
  `instrumentation/consumer.go`, producing these traces.
* The OpenTelemetry text-map propagator reached through
  `otel.GetTextMapPropagator()` is external to the repository; it is
  modelled from the spec as a W3C-style propagator writing two carrier keys.
-/

namespace Orb

/-- A value stored in an `amqp091.Table` (`interface{}` in Go): either a
string or some non-string value (tagged by a number, enough to observe that
`HeaderCarrier.Get` ignores it). -/
inductive TableValue where
  | str (s : String)
  | other (n : Nat)
  deriving DecidableEq, Repr

/-- `amqp091.Table`: a Go string-keyed map, modelled as an association list.
A well-formed table has no duplicate keys (Go map invariant). -/
abbrev Table := List (String × TableValue)

/-- Go map read `t[k]`: first (and, for well-formed tables, only) binding. -/
def lookupTable : Table → String → Option TableValue
  | [], _ => none
  | (k1, v1) :: rest, k => if k1 = k then some v1 else lookupTable rest k

/-- Go map write `t[k] = v`: overwrite the binding if present, else append. -/
def setTable : Table → String → TableValue → Table
  | [], k, v => [(k, v)]
  | (k1, v1) :: rest, k, v =>
      if k1 = k then (k, v) :: rest else (k1, v1) :: setTable rest k v

/-- The keys of a table, as Go's `for k := range hc` enumerates them. -/
def tableKeys (t : Table) : List String := t.map Prod.fst

@[simp] theorem lookupTable_nil (k : String) : lookupTable [] k = none := rfl

@[simp] theorem lookupTable_cons (k1 k : String) (v1 : TableValue) (rest : Table) :
    lookupTable ((k1, v1) :: rest) k =
      if k1 = k then some v1 else lookupTable rest k := rfl

@[simp] theorem setTable_nil (k : String) (v : TableValue) :
    setTable [] k v = [(k, v)] := rfl

@[simp] theorem setTable_cons (k1 k : String) (v1 v : TableValue) (rest : Table) :
    setTable ((k1, v1) :: rest) k v =
      if k1 = k then (k, v) :: rest else (k1, v1) :: setTable rest k v := rfl

theorem lookupTable_setTable_self (t : Table) (k : String) (v : TableValue) :
    lookupTable (setTable t k v) k = some v := by
  induction t with
  | nil => simp
  | cons hd tl ih =>
      obtain ⟨k1, v1⟩ := hd
      by_cases h : k1 = k <;> simp [h, ih]

theorem lookupTable_setTable_ne (t : Table) (k k' : String) (v : TableValue)
    (h : k' ≠ k) : lookupTable (setTable t k v) k' = lookupTable t k' := by
  have h2 : ¬ k = k' := fun e => h e.symm
  induction t with
  | nil => simp [h2]
  | cons hd tl ih =>
      obtain ⟨k1, v1⟩ := hd
      by_cases h1 : k1 = k
      · subst h1
        simp [h2]
      · simp [h1, ih]

theorem mem_tableKeys_setTable (t : Table) (k k' : String) (v : TableValue) :
    k' ∈ tableKeys (setTable t k v) ↔ k' ∈ tableKeys t ∨ k' = k := by
  induction t with
  | nil => simp [tableKeys]
  | cons hd tl ih =>
      obtain ⟨k1, v1⟩ := hd
      by_cases h : k1 = k
      · subst h
        simp [tableKeys]
        tauto
      · simp only [setTable_cons, if_neg h, tableKeys, List.map_cons, List.mem_cons] at *
        tauto

theorem nodup_tableKeys_setTable (t : Table) (k : String) (v : TableValue)
    (h : (tableKeys t).Nodup) : (tableKeys (setTable t k v)).Nodup := by
  induction t with
  | nil => simp [tableKeys]
  | cons hd tl ih =>
      obtain ⟨k1, v1⟩ := hd
      simp only [tableKeys, List.map_cons, List.nodup_cons] at h
      by_cases hk : k1 = k
      · subst hk
        simpa [tableKeys, List.nodup_cons] using h
      · simp only [setTable_cons, if_neg hk, tableKeys, List.map_cons, List.nodup_cons]
        refine ⟨?_, ih h.2⟩
        intro hmem
        rcases (mem_tableKeys_setTable tl k k1 v).1 hmem with h1 | h1
        · exact h.1 h1
        · exact hk h1

theorem mem_tableKeys_iff_lookup (t : Table) (k : String) :
    k ∈ tableKeys t ↔ lookupTable t k ≠ none := by
  induction t with
  | nil => simp [tableKeys]
  | cons hd tl ih =>
      obtain ⟨k1, v1⟩ := hd
      show k ∈ k1 :: tableKeys tl ↔ _
      by_cases h : k1 = k
      · subst h
        simp
      · have h2 : ¬ k = k1 := fun e => h e.symm
        simp [h, h2, ih]

/-! ## internal.HeaderCarrier (from the internal package) -/

namespace HeaderCarrier

/-- `HeaderCarrier.Get`: the string value if present and string-typed, else
the empty string. -/
def Get (hc : Table) (key : String) : String :=
  match lookupTable hc key with
  | some (TableValue.str s) => s
  | _ => ""

/-- `HeaderCarrier.Set`: insert or overwrite a string value. -/
def Set (hc : Table) (key value : String) : Table :=
  setTable hc key (TableValue.str value)

/-- `HeaderCarrier.Keys`: every key present in the map. -/
def Keys (hc : Table) : List String := tableKeys hc

theorem Get_Set_self (hc : Table) (k v : String) : Get (Set hc k v) k = v := by
  simp [Get, Set, lookupTable_setTable_self]

theorem Get_Set_ne (hc : Table) (k k' v : String) (h : k' ≠ k) :
    Get (Set hc k v) k' = Get hc k' := by
  simp [Get, Set, lookupTable_setTable_ne _ _ _ _ h]

end HeaderCarrier

/-- A sequence of Go map writes, left to right (used to state the
"distinct keys ever set" law for `HeaderCarrier.Keys`). -/
def setAll (t : Table) (kvs : List (String × TableValue)) : Table :=
  kvs.foldl (fun acc kv => setTable acc kv.1 kv.2) t

theorem mem_tableKeys_setAll (t : Table) (kvs : List (String × TableValue)) (k : String) :
    k ∈ tableKeys (setAll t kvs) ↔ k ∈ tableKeys t ∨ k ∈ kvs.map Prod.fst := by
  induction kvs generalizing t with
  | nil => simp [setAll]
  | cons hd tl ih =>
      simp only [setAll, List.foldl_cons, List.map_cons, List.mem_cons]
      rw [show tl.foldl (fun acc kv => setTable acc kv.1 kv.2) (setTable t hd.1 hd.2)
            = setAll (setTable t hd.1 hd.2) tl from rfl, ih]
      rw [mem_tableKeys_setTable]
      tauto

theorem nodup_tableKeys_setAll (t : Table) (kvs : List (String × TableValue))
    (h : (tableKeys t).Nodup) : (tableKeys (setAll t kvs)).Nodup := by
  induction kvs generalizing t with
  | nil => simpa [setAll]
  | cons hd tl ih =>
      exact ih (setTable t hd.1 hd.2) (nodup_tableKeys_setTable t hd.1 hd.2 h)

/-! ## internal attribute constants and builders (from the internal package) -/

def TracerName : String := "github.com/startower-observability/orb"
def MessagingSystem : String := "messaging.system"
def MessagingDestinationKind : String := "messaging.destination_kind"
def MessagingDestination : String := "messaging.destination"
def MessagingRabbitMQRoutingKey : String := "messaging.rabbitmq.routing_key"
def MessagingOperation : String := "messaging.operation"
def MessagingMessageID : String := "messaging.message_id"
def MessagingConversationID : String := "messaging.conversation_id"
def SystemRabbitMQ : String := "rabbitmq"
def DestinationKindQueue : String := "queue"
def DestinationKindTopic : String := "topic"
def OperationPublish : String := "publish"
def OperationReceive : String := "receive"

/-- A span attribute: `attribute.String(key, value)`. -/
abbrev Attr := String × String

/-! ## Trace context and the text-map propagator -/

/-- The trace identifiers carried by a span context (trace id and span id,
abstracted to naturals; the all-zero ids are invalid, as in W3C trace
context). -/
structure SpanContext where
  traceID : Nat
  spanID : Nat
  deriving DecidableEq, Repr

/-- A `context.Context`: an opaque payload (standing for all the values a Go
context carries) plus the current span context, plus the lineage of spans
started on it by `Tracer.Start`. -/
structure Context where
  payload : Nat := 0
  spanCtx : Option SpanContext := none
  spans : List String := []
  deriving DecidableEq, Repr

/-- `Tracer.Start` returns a derived context with the new span current; the
derived context records the started span's name on top of the lineage. -/
def tracerStartCtx (ctx : Context) (spanName : String) : Context :=
  { ctx with spans := spanName :: ctx.spans }

/-- Modelled from the spec: the carrier key the W3C-style text-map
propagator uses for the trace id (the exact key scheme is
implementation-defined; a traceparent-style key). -/
def traceIDKey : String := "otel-trace-id"

/-- Modelled from the spec: the carrier key used for the span id. -/
def spanIDKey : String := "otel-span-id"

/-- Modelled from the spec: serialization of a trace identifier to a header
string; injective, with `0` encoding to the empty string (an invalid id
serializes to nothing). -/
def encodeID (n : Nat) : String := String.mk (List.replicate n 'x')

/-- Modelled from the spec: deserialization of a trace identifier. -/
def decodeID (s : String) : Nat := s.data.length

theorem decodeID_encodeID (n : Nat) : decodeID (encodeID n) = n := by
  simp [decodeID, encodeID]

theorem encodeID_eq_empty_iff (n : Nat) : encodeID n = "" ↔ n = 0 := by
  constructor
  · intro h
    have := congrArg (fun s => s.data.length) h
    simpa [encodeID] using this
  · intro h
    simp [encodeID, h]

/-- Modelled from the spec: `otel.GetTextMapPropagator().Inject` for a W3C
trace-context propagator — if the context carries a valid span context,
write its identifiers through the carrier's `Set`; otherwise write
nothing. -/
def textMapInject (ctx : Context) (t : Table) : Table :=
  match ctx.spanCtx with
  | some sc =>
      if sc.traceID ≠ 0 ∧ sc.spanID ≠ 0 then
        HeaderCarrier.Set (HeaderCarrier.Set t traceIDKey (encodeID sc.traceID))
          spanIDKey (encodeID sc.spanID)
      else t
  | none => t

/-- Modelled from the spec: `otel.GetTextMapPropagator().Extract` for a W3C
trace-context propagator — read the carrier keys through `Get`; if both
decode to valid identifiers, return a derived context carrying them, else
return the context unchanged. -/
def textMapExtract (ctx : Context) (t : Table) : Context :=
  let tv := HeaderCarrier.Get t traceIDKey
  let sv := HeaderCarrier.Get t spanIDKey
  if tv ≠ "" ∧ sv ≠ "" then
    { ctx with spanCtx := some ⟨decodeID tv, decodeID sv⟩ }
  else ctx

/-- `internal.InjectContext`: a nil header map is left alone, otherwise the
propagator injects through the `HeaderCarrier` adapter.  `none` models a
nil `amqp091.Table`. -/
def InjectContext (ctx : Context) (headers : Option Table) : Option Table :=
  match headers with
  | none => none
  | some t => some (textMapInject ctx t)

/-- `internal.ExtractContext`: a nil header map returns the context
unchanged, otherwise the propagator extracts through the `HeaderCarrier`
adapter. -/
def ExtractContext (ctx : Context) (headers : Option Table) : Context :=
  match headers with
  | none => ctx
  | some t => textMapExtract ctx t

/-- `internal.GetCommonAttributes`, translated statement by statement. -/
def GetCommonAttributes (exchange routingKey : String) : List Attr :=
  let attrs : List Attr := [(MessagingSystem, SystemRabbitMQ)]
  let attrs :=
    if exchange ≠ "" then
      attrs ++ [(MessagingDestination, exchange), (MessagingDestinationKind, DestinationKindTopic)]
    else
      (attrs ++ [(MessagingDestinationKind, DestinationKindQueue)]) ++
        (if routingKey ≠ "" then [(MessagingDestination, routingKey)] else [])
  attrs ++ (if routingKey ≠ "" then [(MessagingRabbitMQRoutingKey, routingKey)] else [])

/-! ## Message envelopes and the Propagator (instrumentation/propagation.go) -/

/-- Go errors are modelled by their message; `Option GoError` models a
possibly-nil `error` value (`none` = nil). -/
abbrev GoError := String

/-- `amqp091.Publishing`: the fields this library reads or writes.  `none`
headers model a nil `amqp091.Table`. -/
structure Publishing where
  headers : Option Table := none
  messageId : String := ""
  correlationId : String := ""
  deriving DecidableEq, Repr

/-- `amqp091.Delivery`: the fields this library reads, plus the outcome the
broker would give to an `Ack` / `Nack` call on this delivery (`none` =
the call succeeds, `some e` = it returns error `e`). -/
structure Delivery where
  headers : Option Table := none
  routingKey : String := ""
  messageId : String := ""
  correlationId : String := ""
  ackResult : Option GoError := none
  nackResult : Option GoError := none

/-- `Propagator.InjectToPublishing`: create the header map when nil, then
inject through `internal.InjectContext`. -/
def InjectToPublishing (ctx : Context) (p : Publishing) : Publishing :=
  let p := if p.headers = none then { p with headers := some [] } else p
  { p with headers := InjectContext ctx p.headers }

/-- `Propagator.ExtractFromDelivery`: delegate to
`internal.ExtractContext` on the delivery's headers. -/
def ExtractFromDelivery (ctx : Context) (d : Delivery) : Context :=
  ExtractContext ctx d.headers

/-! ## Publish/consume attribute builders (from the internal package) -/

/-- `internal.GetPublishAttributes`, translated statement by statement. -/
def GetPublishAttributes (exchange routingKey : String) (msg : Publishing) : List Attr :=
  let attrs := GetCommonAttributes exchange routingKey
  let attrs := attrs ++ [(MessagingOperation, OperationPublish)]
  let attrs :=
    if msg.messageId ≠ "" then attrs ++ [(MessagingMessageID, msg.messageId)] else attrs
  if msg.correlationId ≠ "" then attrs ++ [(MessagingConversationID, msg.correlationId)] else attrs

/-- `internal.GetConsumeAttributes`, translated statement by statement. -/
def GetConsumeAttributes (queueName : String) (d : Delivery) : List Attr :=
  let attrs : List Attr :=
    [(MessagingSystem, SystemRabbitMQ),
     (MessagingDestinationKind, DestinationKindQueue),
     (MessagingOperation, OperationReceive)]
  let attrs := if queueName ≠ "" then attrs ++ [(MessagingDestination, queueName)] else attrs
  let attrs :=
    if d.routingKey ≠ "" then attrs ++ [(MessagingRabbitMQRoutingKey, d.routingKey)] else attrs
  let attrs :=
    if d.messageId ≠ "" then attrs ++ [(MessagingMessageID, d.messageId)] else attrs
  if d.correlationId ≠ "" then attrs ++ [(MessagingConversationID, d.correlationId)] else attrs

/-! ## Span and channel effects -/

/-- The call the publisher makes on the underlying channel.  `ctx = none`
models a send through a context-less client call (`Channel.Publish`);
`ctx = some c` models a context-taking call
(`PublishWithDeferredConfirmWithContext`). -/
structure SendCall where
  ctx : Option Context
  exchange : String
  routingKey : String
  mandatory : Bool
  immediate : Bool
  msg : Publishing
  deriving DecidableEq, Repr

/-- One observable effect of a wrapper call: span lifecycle and mutation,
delivery acknowledgment, and the underlying channel send. -/
inductive Event where
  | spanStart (name : String) (attrs : List Attr)
  | spanEnd
  | ack (multiple : Bool)
  | nack (multiple requeue : Bool)
  | recordError (msg : String)
  | setStatus (isError : Bool) (description : String)
  | send (call : SendCall)
  deriving DecidableEq, Repr

/-- `internal.SafeSetSpanStatus` on a non-nil span: record the error and set
error status when the error is non-nil, else set ok status. -/
def SafeSetSpanStatus (err : Option GoError) : List Event :=
  match err with
  | some e => [Event.recordError e, Event.setStatus true e]
  | none => [Event.setStatus false ""]

/-! ## Consumer (instrumentation/consumer.go) -/

/-- A user `MessageHandler`; `none` result is success.  A nil handler is
modelled by `Option Handler = none` at the call sites. -/
abbrev Handler := Context → Delivery → Option GoError

/-- A `ConsumerConfig.AttributeEnricher` (only its attribute output is
relevant to the trace). -/
abbrev ConsumeEnricher := Context → String → Delivery → List Attr

/-- `defaultConsumeSpanName`. -/
def defaultConsumeSpanName (queueName : String) (d : Delivery) : String :=
  if queueName ≠ "" then queueName ++ " receive"
  else if d.routingKey ≠ "" then d.routingKey ++ " receive"
  else "rabbitmq receive"

/-- The handler's outcome in `processDelivery`: a nil handler is tolerated
as a no-op success. -/
def handlerOutcome (handler : Option Handler) (ctx : Context) (d : Delivery) :
    Option GoError :=
  match handler with
  | some h => h ctx d
  | none => none

/-- The derived context a consumer handler runs under: the propagated
context extracted from the delivery, with the consumer span started on
it. -/
def consumeSpanCtx (fmt : String → Delivery → String) (parentCtx : Context)
    (queueName : String) (d : Delivery) : Context :=
  tracerStartCtx (ExtractFromDelivery parentCtx d) (fmt queueName d)

/-- `Consumer.processDelivery`, translated statement by statement into the
event trace it produces.  `fmt` is the configured `SpanNameFormatter`,
`enricher` the configured `AttributeEnricher` (nil allowed for both the
enricher and the handler). -/
def processDelivery (fmt : String → Delivery → String)
    (enricher : Option ConsumeEnricher) (parentCtx : Context)
    (queueName : String) (d : Delivery) (handler : Option Handler)
    (autoAck : Bool) : List Event :=
  let ctx := ExtractFromDelivery parentCtx d
  let spanName := fmt queueName d
  let attrs := GetConsumeAttributes queueName d
  let attrs :=
    match enricher with
    | some f => attrs ++ f ctx queueName d
    | none => attrs
  let ctx := tracerStartCtx ctx spanName
  let err := handlerOutcome handler ctx d
  let ackPart : List Event × Option GoError :=
    if autoAck then ([], err)
    else
      match err with
      | some _ =>
          match d.nackResult with
          | some nackErr =>
              ([Event.nack false true,
                Event.recordError ("failed to nack message: " ++ nackErr)], err)
          | none => ([Event.nack false true], err)
      | none =>
          match d.ackResult with
          | some ackErr =>
              ([Event.ack false,
                Event.recordError ("failed to ack message: " ++ ackErr)], some ackErr)
          | none => ([Event.ack false], err)
  [Event.spanStart spanName attrs] ++ ackPart.1 ++ SafeSetSpanStatus ackPart.2 ++
    [Event.spanEnd]

/-- `Consumer.ProcessDelivery`: runs the per-delivery procedure with
`autoAck = false` and returns nil. -/
def ProcessDelivery (fmt : String → Delivery → String)
    (enricher : Option ConsumeEnricher) (ctx : Context) (queueName : String)
    (d : Delivery) (handler : Option Handler) : List Event × Option GoError :=
  (processDelivery fmt enricher ctx queueName d handler false, none)

/-! ## Publisher (instrumentation/consumer.go, publisher part) -/

/-- A `PublisherConfig.AttributeEnricher`. -/
abbrev PublishEnricher := Context → String → String → Publishing → List Attr

/-- `defaultPublishSpanName`. -/
def defaultPublishSpanName (exchange routingKey : String) : String :=
  if exchange ≠ "" then exchange ++ " publish"
  else if routingKey ≠ "" then routingKey ++ " publish"
  else "rabbitmq publish"

/-- The message the publisher hands to the underlying send: headers created
when nil, then the derived context injected. -/
def publishOutMsg (derivedCtx : Context) (msg : Publishing) : Publishing :=
  let msg := if msg.headers = none then { msg with headers := some [] } else msg
  InjectToPublishing derivedCtx msg

/-- `Publisher.Publish`, translated statement by statement into its event
trace and returned error.  `sendErr` is the outcome of the underlying
`channel.Publish` call, which takes no context. -/
def Publish (fmt : String → String → String) (enricher : Option PublishEnricher)
    (ctx : Context) (exchange routingKey : String) (mandatory immediate : Bool)
    (msg : Publishing) (sendErr : Option GoError) : List Event × Option GoError :=
  let spanName := fmt exchange routingKey
  let attrs := GetPublishAttributes exchange routingKey msg
  let attrs :=
    match enricher with
    | some f => attrs ++ f ctx exchange routingKey msg
    | none => attrs
  let ctx := tracerStartCtx ctx spanName
  let msg := publishOutMsg ctx msg
  ([Event.spanStart spanName attrs,
    Event.send ⟨none, exchange, routingKey, mandatory, immediate, msg⟩] ++
      SafeSetSpanStatus sendErr ++ [Event.spanEnd],
   sendErr)

/-- `Publisher.PublishWithConfirm`: identical to `Publish` except the
underlying call is `PublishWithDeferredConfirmWithContext`, which receives
the derived context. -/
def PublishWithConfirm (fmt : String → String → String)
    (enricher : Option PublishEnricher) (ctx : Context)
    (exchange routingKey : String) (mandatory immediate : Bool)
    (msg : Publishing) (sendErr : Option GoError) : List Event × Option GoError :=
  let spanName := fmt exchange routingKey
  let attrs := GetPublishAttributes exchange routingKey msg
  let attrs :=
    match enricher with
    | some f => attrs ++ f ctx exchange routingKey msg
    | none => attrs
  let ctx := tracerStartCtx ctx spanName
  let msg := publishOutMsg ctx msg
  ([Event.spanStart spanName attrs,
    Event.send ⟨some ctx, exchange, routingKey, mandatory, immediate, msg⟩] ++
      SafeSetSpanStatus sendErr ++ [Event.spanEnd],
   sendErr)

/-! ## Trace observers -/

/-- Number of positive acknowledgments in a trace. -/
def countAck (tr : List Event) : Nat :=
  tr.countP fun e => match e with | Event.ack _ => true | _ => false

/-- Number of negative acknowledgments in a trace. -/
def countNack (tr : List Event) : Nat :=
  tr.countP fun e => match e with | Event.nack _ _ => true | _ => false

/-- The span statuses set in a trace, in order. -/
def statusList (tr : List Event) : List (Bool × String) :=
  tr.filterMap fun e => match e with | Event.setStatus b m => some (b, m) | _ => none

/-- The underlying channel send calls in a trace, in order. -/
def sendCalls (tr : List Event) : List SendCall :=
  tr.filterMap fun e => match e with | Event.send c => some c | _ => none

/-! ## Helper lemmas -/

theorem traceIDKey_ne_spanIDKey : traceIDKey ≠ spanIDKey := by decide

theorem lookupTable_textMapInject_ne (ctx : Context) (t : Table) (k : String)
    (hk1 : k ≠ traceIDKey) (hk2 : k ≠ spanIDKey) :
    lookupTable (textMapInject ctx t) k = lookupTable t k := by
  rcases h : ctx.spanCtx with _ | sc
  · simp [textMapInject, h]
  · by_cases hv : sc.traceID ≠ 0 ∧ sc.spanID ≠ 0
    · simp only [textMapInject, h, if_pos hv, HeaderCarrier.Set]
      rw [lookupTable_setTable_ne _ _ _ _ hk2, lookupTable_setTable_ne _ _ _ _ hk1]
    · simp [textMapInject, h, hv]

/-! ## Claims -/

/-- Claim C2: for every `(exchange, routingKey)` pair, `GetCommonAttributes`
returns exactly the spec's ordered sequence (topic-style when the exchange
is non-empty, queue-style otherwise, with routing-key attributes iff the
routing key is non-empty); the system identifier is always included and no
attribute carries an empty source value. -/
theorem C2_common_attributes (exchange routingKey : String) :
    GetCommonAttributes exchange routingKey =
      (if exchange ≠ "" then
        [(MessagingSystem, SystemRabbitMQ), (MessagingDestination, exchange),
         (MessagingDestinationKind, DestinationKindTopic)] ++
          (if routingKey ≠ "" then [(MessagingRabbitMQRoutingKey, routingKey)] else [])
      else
        [(MessagingSystem, SystemRabbitMQ),
         (MessagingDestinationKind, DestinationKindQueue)] ++
          (if routingKey ≠ "" then
            [(MessagingDestination, routingKey), (MessagingRabbitMQRoutingKey, routingKey)]
          else [])) ∧
    (MessagingSystem, SystemRabbitMQ) ∈ GetCommonAttributes exchange routingKey ∧
    (GetCommonAttributes exchange routingKey).all (fun kv => !(kv.2 == "")) = true := by
  by_cases hex : exchange = "" <;> by_cases hrk : routingKey = "" <;>
    simp [GetCommonAttributes, hex, hrk, MessagingSystem, SystemRabbitMQ,
      MessagingDestination, MessagingDestinationKind, DestinationKindTopic,
      DestinationKindQueue, MessagingRabbitMQRoutingKey]

/-- Claim C9: the `HeaderCarrier` contract — `Get` on an absent or
non-string-typed key returns the empty string; `Set` followed by `Get` on
the same key returns the value just set; `Keys` holds exactly the keys
present, and for a table built from empty by a sequence of writes its
length equals the number of distinct keys ever set. -/
theorem C9_header_carrier_contract (t : Table) (k v : String) (n : Nat)
    (kvs : List (String × TableValue)) :
    (lookupTable t k = none → HeaderCarrier.Get t k = "") ∧
    (lookupTable t k = some (TableValue.other n) → HeaderCarrier.Get t k = "") ∧
    HeaderCarrier.Get (HeaderCarrier.Set t k v) k = v ∧
    (∀ k3, k3 ∈ HeaderCarrier.Keys t ↔ lookupTable t k3 ≠ none) ∧
    (HeaderCarrier.Keys (setAll [] kvs)).length = (kvs.map Prod.fst).dedup.length := by
  refine ⟨?_, ?_, HeaderCarrier.Get_Set_self t k v, ?_, ?_⟩
  · intro h
    simp [HeaderCarrier.Get, h]
  · intro h
    simp [HeaderCarrier.Get, h]
  · intro k3
    exact mem_tableKeys_iff_lookup t k3
  · have hnd : (tableKeys (setAll [] kvs)).Nodup :=
      nodup_tableKeys_setAll [] kvs (by simp [tableKeys])
    have hmem : ∀ x, x ∈ tableKeys (setAll [] kvs) ↔ x ∈ kvs.map Prod.fst := by
      intro x
      rw [mem_tableKeys_setAll]
      simp [tableKeys]
    have hfin : (tableKeys (setAll [] kvs)).toFinset = (kvs.map Prod.fst).toFinset := by
      ext x
      simp [hmem x]
    calc (HeaderCarrier.Keys (setAll [] kvs)).length
        = (tableKeys (setAll [] kvs)).toFinset.card :=
          (List.toFinset_card_of_nodup hnd).symm
      _ = (kvs.map Prod.fst).toFinset.card := by rw [hfin]
      _ = (kvs.map Prod.fst).dedup.length := List.card_toFinset _

/-- Witness for C9 at concrete inputs: a table with a non-string value and
an absent key, and a set-then-get round trip. -/
theorem C9_header_carrier_contract_witness :
    HeaderCarrier.Get [("b", TableValue.other 5)] "zz" = "" ∧
    HeaderCarrier.Get [("b", TableValue.other 5)] "b" = "" ∧
    HeaderCarrier.Get (HeaderCarrier.Set [] "k" "v") "k" = "v" :=
  ⟨(C9_header_carrier_contract [("b", TableValue.other 5)] "zz" "v" 5 []).1 (by decide),
   (C9_header_carrier_contract [("b", TableValue.other 5)] "b" "v" 5 []).2.1 (by decide),
   (C9_header_carrier_contract [] "k" "v" 5 []).2.2.1⟩

/-- Claim C3: a context carrying a valid trace, injected into a header map
and then extracted from the same map starting from a fresh context, yields
a context whose trace identifiers match the injected ones. -/
theorem C3_propagation_roundtrip (ctx fresh : Context) (sc : SpanContext)
    (t : Table) (hctx : ctx.spanCtx = some sc) (ht : sc.traceID ≠ 0)
    (hs : sc.spanID ≠ 0) :
    (ExtractContext fresh (InjectContext ctx (some t))).spanCtx = some sc := by
  have hinj : textMapInject ctx t =
      HeaderCarrier.Set (HeaderCarrier.Set t traceIDKey (encodeID sc.traceID))
        spanIDKey (encodeID sc.spanID) := by
    simp [textMapInject, hctx, ht, hs]
  have hgt : HeaderCarrier.Get (textMapInject ctx t) traceIDKey = encodeID sc.traceID := by
    rw [hinj, HeaderCarrier.Get_Set_ne _ _ _ _ traceIDKey_ne_spanIDKey,
      HeaderCarrier.Get_Set_self]
  have hgs : HeaderCarrier.Get (textMapInject ctx t) spanIDKey = encodeID sc.spanID := by
    rw [hinj, HeaderCarrier.Get_Set_self]
  have hte : encodeID sc.traceID ≠ "" := fun h => ht ((encodeID_eq_empty_iff _).1 h)
  have hse : encodeID sc.spanID ≠ "" := fun h => hs ((encodeID_eq_empty_iff _).1 h)
  show (textMapExtract fresh (textMapInject ctx t)).spanCtx = some sc
  rw [textMapExtract]
  simp only [hgt, hgs]
  rw [if_pos ⟨hte, hse⟩]
  simp [decodeID_encodeID]

/-- Witness for C3: a concrete context with trace id 1 and span id 2 round
trips through an initially non-empty header map. -/
theorem C3_propagation_roundtrip_witness :
    (ExtractContext {}
      (InjectContext { spanCtx := some ⟨1, 2⟩ }
        (some [("existing", TableValue.str "value")]))).spanCtx =
      some ⟨1, 2⟩ :=
  C3_propagation_roundtrip { spanCtx := some ⟨1, 2⟩ } {} ⟨1, 2⟩
    [("existing", TableValue.str "value")] rfl (by decide) (by decide)

/-- Claim C4: `InjectToPublishing` creates an empty header map when the
message's header map is unset, and injection only writes the propagation
carrier keys — every pre-existing entry under any other key keeps its
value. -/
theorem C4_inject_additive (ctx : Context) (p : Publishing) (k : String)
    (hk1 : k ≠ traceIDKey) (hk2 : k ≠ spanIDKey) :
    (InjectToPublishing ctx p).headers ≠ none ∧
    (p.headers = none → (InjectToPublishing ctx p).headers = some (textMapInject ctx [])) ∧
    (∀ t, p.headers = some t →
      (InjectToPublishing ctx p).headers = some (textMapInject ctx t) ∧
      lookupTable (textMapInject ctx t) k = lookupTable t k) := by
  refine ⟨?_, ?_, ?_⟩
  · cases h : p.headers <;> simp [InjectToPublishing, InjectContext, h]
  · intro h
    simp [InjectToPublishing, InjectContext, h]
  · intro t h
    refine ⟨by simp [InjectToPublishing, InjectContext, h], ?_⟩
    exact lookupTable_textMapInject_ne ctx t k hk1 hk2

/-- Witness for C4: injecting into a message that already holds
`{"existing": "value"}` leaves that entry untouched, and a nil header map
is replaced by a fresh injected one. -/
theorem C4_inject_additive_witness :
    (InjectToPublishing { spanCtx := some ⟨1, 2⟩ }
        { headers := some [("existing", TableValue.str "value")] }).headers =
      some (textMapInject { spanCtx := some ⟨1, 2⟩ } [("existing", TableValue.str "value")]) ∧
    lookupTable (textMapInject { spanCtx := some ⟨1, 2⟩ }
        [("existing", TableValue.str "value")]) "existing" =
      some (TableValue.str "value") ∧
    (InjectToPublishing { spanCtx := some ⟨1, 2⟩ } {}).headers ≠ none := by
  have h := C4_inject_additive { spanCtx := some ⟨1, 2⟩ }
    { headers := some [("existing", TableValue.str "value")] } "existing"
    (by decide) (by decide)
  have h2 := (h.2.2 [("existing", TableValue.str "value")] rfl)
  refine ⟨h2.1, ?_, (C4_inject_additive { spanCtx := some ⟨1, 2⟩ } {} "existing"
    (by decide) (by decide)).1⟩
  rw [h2.2]
  decide

/-- Claim C5: extraction never fails — with a nil header map the original
context is returned unchanged, and with headers carrying no valid
propagation keys the original context is also returned unchanged. -/
theorem C5_extract_never_fails (ctx : Context) (d : Delivery) :
    (d.headers = none → ExtractFromDelivery ctx d = ctx) ∧
    (∀ t, d.headers = some t →
      (HeaderCarrier.Get t traceIDKey = "" ∨ HeaderCarrier.Get t spanIDKey = "") →
      ExtractFromDelivery ctx d = ctx) := by
  constructor
  · intro h
    simp [ExtractFromDelivery, ExtractContext, h]
  · intro t h hv
    simp only [ExtractFromDelivery, ExtractContext, h]
    rw [textMapExtract]
    rcases hv with hv | hv <;> simp [hv]

/-- Witness for C5: a delivery with nil headers and a delivery whose headers
hold no propagation keys both leave a concrete context unchanged. -/
theorem C5_extract_never_fails_witness :
    ExtractFromDelivery { payload := 7 } {} = { payload := 7 } ∧
    ExtractFromDelivery { payload := 7 }
      { headers := some [("test", TableValue.str "value")] } = { payload := 7 } :=
  ⟨(C5_extract_never_fails { payload := 7 } {}).1 rfl,
   (C5_extract_never_fails { payload := 7 }
      { headers := some [("test", TableValue.str "value")] }).2
     [("test", TableValue.str "value")] rfl (Or.inl (by decide))⟩

/-- Claim C1: acknowledgment policy of the per-delivery procedure — with
`autoAck = false` a successful handler yields exactly one ack and no nack,
a failing handler yields exactly one nack with requeue enabled and no ack;
with `autoAck = true` neither ack nor nack is issued. -/
theorem C1_ack_policy (fmt : String → Delivery → String)
    (enricher : Option ConsumeEnricher) (parentCtx : Context)
    (queueName : String) (d : Delivery) (handler : Option Handler) :
    (handlerOutcome handler (consumeSpanCtx fmt parentCtx queueName d) d = none →
      countAck (processDelivery fmt enricher parentCtx queueName d handler false) = 1 ∧
      countNack (processDelivery fmt enricher parentCtx queueName d handler false) = 0) ∧
    (∀ e, handlerOutcome handler (consumeSpanCtx fmt parentCtx queueName d) d = some e →
      countNack (processDelivery fmt enricher parentCtx queueName d handler false) = 1 ∧
      Event.nack false true ∈ processDelivery fmt enricher parentCtx queueName d handler false ∧
      countAck (processDelivery fmt enricher parentCtx queueName d handler false) = 0) ∧
    (countAck (processDelivery fmt enricher parentCtx queueName d handler true) = 0 ∧
     countNack (processDelivery fmt enricher parentCtx queueName d handler true) = 0) := by
  refine ⟨?_, ?_, ?_⟩
  · intro h
    cases hak : d.ackResult <;>
      simp [processDelivery, consumeSpanCtx] at h ⊢ <;>
      simp [h, hak, countAck, countNack, SafeSetSpanStatus]
  · intro e h
    cases hnk : d.nackResult <;>
      simp [processDelivery, consumeSpanCtx] at h ⊢ <;>
      simp [h, hnk, countAck, countNack, SafeSetSpanStatus]
  · cases h : handlerOutcome handler (consumeSpanCtx fmt parentCtx queueName d) d <;>
      simp [processDelivery, consumeSpanCtx] at h ⊢ <;>
      simp [h, countAck, countNack, SafeSetSpanStatus]

/-- Witness for C1 at concrete inputs: default formatter, empty context, a
nil handler (success) and a handler returning an error. -/
theorem C1_ack_policy_witness :
    (countAck (processDelivery defaultConsumeSpanName none {} "q" {} none false) = 1 ∧
     countNack (processDelivery defaultConsumeSpanName none {} "q" {} none false) = 0) ∧
    (countNack (processDelivery defaultConsumeSpanName none {} "q" {}
        (some fun _ _ => some "boom") false) = 1 ∧
     Event.nack false true ∈ processDelivery defaultConsumeSpanName none {} "q" {}
        (some fun _ _ => some "boom") false ∧
     countAck (processDelivery defaultConsumeSpanName none {} "q" {}
        (some fun _ _ => some "boom") false) = 0) ∧
    (countAck (processDelivery defaultConsumeSpanName none {} "q" {} none true) = 0 ∧
     countNack (processDelivery defaultConsumeSpanName none {} "q" {} none true) = 0) :=
  ⟨(C1_ack_policy defaultConsumeSpanName none {} "q" {} none).1 rfl,
   (C1_ack_policy defaultConsumeSpanName none {} "q" {}
      (some fun _ _ => some "boom")).2.1 "boom" rfl,
   (C1_ack_policy defaultConsumeSpanName none {} "q" {} none).2.2⟩

/-- Claim C6: with `autoAck = false`, a failing ack after a successful
handler is recorded on the span and its error becomes the span status; a
failing nack after a failing handler is recorded on the span but the span
status is still set from the original handler error. -/
theorem C6_ack_error_precedence (fmt : String → Delivery → String)
    (enricher : Option ConsumeEnricher) (parentCtx : Context)
    (queueName : String) (d : Delivery) (handler : Option Handler) :
    (∀ ackErr,
      handlerOutcome handler (consumeSpanCtx fmt parentCtx queueName d) d = none →
      d.ackResult = some ackErr →
      Event.recordError ("failed to ack message: " ++ ackErr) ∈
        processDelivery fmt enricher parentCtx queueName d handler false ∧
      statusList (processDelivery fmt enricher parentCtx queueName d handler false) =
        [(true, ackErr)]) ∧
    (∀ he ne,
      handlerOutcome handler (consumeSpanCtx fmt parentCtx queueName d) d = some he →
      d.nackResult = some ne →
      Event.recordError ("failed to nack message: " ++ ne) ∈
        processDelivery fmt enricher parentCtx queueName d handler false ∧
      statusList (processDelivery fmt enricher parentCtx queueName d handler false) =
        [(true, he)]) := by
  constructor
  · intro ackErr h hak
    simp [processDelivery, consumeSpanCtx] at h
    simp [processDelivery, h, hak, statusList, SafeSetSpanStatus]
  · intro he ne h hnk
    simp [processDelivery, consumeSpanCtx] at h
    simp [processDelivery, h, hnk, statusList, SafeSetSpanStatus]

/-- Witness for C6 at concrete inputs: a delivery whose ack fails under a
successful handler, and a delivery whose nack fails under a failing
handler. -/
theorem C6_ack_error_precedence_witness :
    (Event.recordError ("failed to ack message: " ++ "ackboom") ∈
      processDelivery defaultConsumeSpanName none {} "q" { ackResult := some "ackboom" }
        none false ∧
     statusList (processDelivery defaultConsumeSpanName none {} "q"
        { ackResult := some "ackboom" } none false) = [(true, "ackboom")]) ∧
    (Event.recordError ("failed to nack message: " ++ "nackboom") ∈
      processDelivery defaultConsumeSpanName none {} "q" { nackResult := some "nackboom" }
        (some fun _ _ => some "handlerboom") false ∧
     statusList (processDelivery defaultConsumeSpanName none {} "q"
        { nackResult := some "nackboom" } (some fun _ _ => some "handlerboom") false) =
       [(true, "handlerboom")]) :=
  ⟨(C6_ack_error_precedence defaultConsumeSpanName none {} "q"
      { ackResult := some "ackboom" } none).1 "ackboom" rfl rfl,
   (C6_ack_error_precedence defaultConsumeSpanName none {} "q"
      { nackResult := some "nackboom" } (some fun _ _ => some "handlerboom")).2
     "handlerboom" "nackboom" rfl rfl⟩

/-- Counterexample to claim C7: invoking `ProcessDelivery` directly on a
concrete delivery with a nil handler issues an acknowledgment — the claim
that the wrapper issues no ack and no nack in single-delivery mode is
false. -/
theorem C7_counterexample :
    ¬ (countAck (ProcessDelivery defaultConsumeSpanName none {} "q" {} none).1 = 0 ∧
       countNack (ProcessDelivery defaultConsumeSpanName none {} "q" {} none).1 = 0) := by
  intro h
  have h1 : countAck (ProcessDelivery defaultConsumeSpanName none {} "q" {} none).1 = 1 := by
    decide
  rw [h.1] at h1
  exact Nat.zero_ne_one h1

/-- Claim C7 as amended: `ProcessDelivery` invokes the per-delivery
procedure with `autoAck = false`, so acknowledgment handling is enabled —
the wrapper issues exactly one acknowledgment per delivery: an ack when the
handler succeeds, a nack when it fails. -/
theorem C7_amended_ack_enabled (fmt : String → Delivery → String)
    (enricher : Option ConsumeEnricher) (ctx : Context) (queueName : String)
    (d : Delivery) (handler : Option Handler) :
    countAck (ProcessDelivery fmt enricher ctx queueName d handler).1 +
      countNack (ProcessDelivery fmt enricher ctx queueName d handler).1 = 1 ∧
    (handlerOutcome handler (consumeSpanCtx fmt ctx queueName d) d = none →
      countAck (ProcessDelivery fmt enricher ctx queueName d handler).1 = 1) ∧
    (∀ e, handlerOutcome handler (consumeSpanCtx fmt ctx queueName d) d = some e →
      countNack (ProcessDelivery fmt enricher ctx queueName d handler).1 = 1) := by
  refine ⟨?_, ?_, ?_⟩
  · rcases h : handlerOutcome handler (consumeSpanCtx fmt ctx queueName d) d with _ | e
    · simp [consumeSpanCtx] at h
      cases hak : d.ackResult <;>
        simp [ProcessDelivery, processDelivery, h, hak, countAck, countNack,
          SafeSetSpanStatus]
    · simp [consumeSpanCtx] at h
      cases hnk : d.nackResult <;>
        simp [ProcessDelivery, processDelivery, h, hnk, countAck, countNack,
          SafeSetSpanStatus]
  · intro h
    simp [consumeSpanCtx] at h
    cases hak : d.ackResult <;>
      simp [ProcessDelivery, processDelivery, h, hak, countAck, SafeSetSpanStatus]
  · intro e h
    simp [consumeSpanCtx] at h
    cases hnk : d.nackResult <;>
      simp [ProcessDelivery, processDelivery, h, hnk, countNack, SafeSetSpanStatus]

/-- Witness for the amended C7 at concrete inputs: a nil handler leads to
one ack, a failing handler to one nack. -/
theorem C7_amended_ack_enabled_witness :
    countAck (ProcessDelivery defaultConsumeSpanName none {} "q" {} none).1 +
      countNack (ProcessDelivery defaultConsumeSpanName none {} "q" {} none).1 = 1 ∧
    countAck (ProcessDelivery defaultConsumeSpanName none {} "q" {} none).1 = 1 ∧
    countNack (ProcessDelivery defaultConsumeSpanName none {} "q" {}
        (some fun _ _ => some "boom")).1 = 1 :=
  ⟨(C7_amended_ack_enabled defaultConsumeSpanName none {} "q" {} none).1,
   (C7_amended_ack_enabled defaultConsumeSpanName none {} "q" {} none).2.1 rfl,
   (C7_amended_ack_enabled defaultConsumeSpanName none {} "q" {}
      (some fun _ _ => some "boom")).2.2 "boom" rfl⟩

/-- Claim C10: `ProcessDelivery` always returns nil — handler errors and
acknowledgment errors are recorded on the span but never surfaced through
the error return value. -/
theorem C10_process_delivery_returns_nil (fmt : String → Delivery → String)
    (enricher : Option ConsumeEnricher) (ctx : Context) (queueName : String)
    (d : Delivery) (handler : Option Handler) :
    (ProcessDelivery fmt enricher ctx queueName d handler).2 = none := rfl

/-- Counterexample to claim C8: for the plain publish at a concrete input,
the recorded underlying send call carries no context at all — the
underlying `Publish` delegate is context-less, so the claim that both
variants pass the derived context is false. -/
theorem C8_counterexample :
    (sendCalls (Publish defaultPublishSpanName none {} "ex" "rk" false false {} none).1).map
        SendCall.ctx ≠
      [some (tracerStartCtx {} (defaultPublishSpanName "ex" "rk"))] := by
  intro h
  have h1 : (sendCalls (Publish defaultPublishSpanName none {} "ex" "rk" false false
      {} none).1).map SendCall.ctx = [none] := by decide
  rw [h1] at h
  simp at h

/-- Claim C8 as amended: the confirmation variant invokes the underlying
send with the derived context (which differs from the caller's context) and
the header-mutated message; the plain variant delegates to the context-less
underlying send, passing only the header-mutated message. -/
theorem C8_amended_send_delegation (fmt : String → String → String)
    (enricher : Option PublishEnricher) (ctx : Context)
    (exchange routingKey : String) (mandatory immediate : Bool)
    (msg : Publishing) (sendErr : Option GoError) :
    sendCalls (PublishWithConfirm fmt enricher ctx exchange routingKey mandatory
        immediate msg sendErr).1 =
      [⟨some (tracerStartCtx ctx (fmt exchange routingKey)), exchange, routingKey,
        mandatory, immediate,
        publishOutMsg (tracerStartCtx ctx (fmt exchange routingKey)) msg⟩] ∧
    tracerStartCtx ctx (fmt exchange routingKey) ≠ ctx ∧
    sendCalls (Publish fmt enricher ctx exchange routingKey mandatory immediate
        msg sendErr).1 =
      [⟨none, exchange, routingKey, mandatory, immediate,
        publishOutMsg (tracerStartCtx ctx (fmt exchange routingKey)) msg⟩] := by
  refine ⟨?_, ?_, ?_⟩
  · simp [PublishWithConfirm, sendCalls, SafeSetSpanStatus]
    cases sendErr <;> simp [SafeSetSpanStatus]
  · intro h
    have := congrArg Context.spans h
    simp [tracerStartCtx] at this
  · simp [Publish, sendCalls, SafeSetSpanStatus]
    cases sendErr <;> simp [SafeSetSpanStatus]

end Orb
